import Mathlib

/-!
Shallow embedding of the EngageAI backend gamification core:
the level calculator (`src/shared/utils/level-calculator.ts`), the
award-XP dispatcher (`src/application/gamification/award-xp.usecase.ts`),
the gamification worker (`src/infrastructure/queue/gamification.processor.ts`),
the leaderboard cache client (`src/infrastructure/cache/redis.client.ts`)
and the global ranking read path (`src/presentation/routes/v1/ranking.routes.ts`).

JS numbers holding XP/star amounts are modelled as `Int` (they may in
principle be negative); levels as `Nat`. Opaque payload bags (`context`,
notification `data`) carry no claim-relevant information and are omitted
from the records.
-/

namespace EngageAI

/-- The three role tiers of the `UserRole` enum. -/
inductive Role where
  | colaborador
  | gestor
  | super_admin
deriving DecidableEq

/-- `LEVEL_THRESHOLDS` from level-calculator.ts: cumulative XP required to
reach each level; index 0 is level 1. -/
def LEVEL_THRESHOLDS : List Int :=
  [0, 500, 1500, 3000, 5000, 7500, 10500, 14000, 18000, 23000]

/-- The `for` loop body of `calculateLevel`: walks the thresholds from index
`i`, setting `level := i + 1` while `xp >= LEVEL_THRESHOLDS[i]`, and breaks
at the first threshold that exceeds `xp`. -/
def calcLevelGo (xp : Int) : Nat → Nat → List Int → Nat
  | _, level, [] => level
  | i, level, t :: ts => if t ≤ xp then calcLevelGo xp (i + 1) (i + 1) ts else level

/-- `calculateLevel(xp)` from level-calculator.ts: starts at level 1 and scans
`LEVEL_THRESHOLDS` from index 1. -/
def calculateLevel (xp : Int) : Nat :=
  calcLevelGo xp 1 1 (LEVEL_THRESHOLDS.drop 1)

/-- `calculateXpForNextLevel(currentLevel)` from level-calculator.ts:
`LEVEL_THRESHOLDS[currentLevel]`, or the last threshold plus 5000 once the
index runs past the table (max level reached). -/
def calculateXpForNextLevel (currentLevel : Nat) : Int :=
  if LEVEL_THRESHOLDS.length ≤ currentLevel then
    LEVEL_THRESHOLDS.getD (LEVEL_THRESHOLDS.length - 1) 0 + 5000
  else
    LEVEL_THRESHOLDS.getD currentLevel 0

/-- Result record of `checkLevelUp`. -/
structure LevelCheck where
  leveledUp : Bool
  oldLevel : Nat
  newLevel : Nat
deriving DecidableEq

/-- `checkLevelUp(oldXp, newXp)` from level-calculator.ts. -/
def checkLevelUp (oldXp newXp : Int) : LevelCheck :=
  let oldLevel := calculateLevel oldXp
  let newLevel := calculateLevel newXp
  { leveledUp := decide (oldLevel < newLevel), oldLevel := oldLevel, newLevel := newLevel }

/-- A row of the `User` table, restricted to the fields the gamification
core reads or writes (`estrelas` = stars, `nivel` = level, `xpProximo` =
XP threshold for the next level). -/
structure User where
  id : String
  role : Role
  xp : Int
  estrelas : Int
  nivel : Nat
  xpProximo : Int
  isActive : Bool
deriving DecidableEq

/-- `GamificationJobData` from bullmq.client.ts; `xp` and `stars` are
optional in the TS interface (`xp?: number`), defaulted to 0 by the worker.
The opaque `context` bag is omitted. -/
structure GamificationJobData where
  userId : String
  action : String
  xp : Option Int
  stars : Option Int
deriving DecidableEq

/-- `NotificationJobData` from bullmq.client.ts; the opaque `data` bag is
omitted. -/
structure NotificationJobData where
  userId : String
  type : String
  title : String
  message : String
deriving DecidableEq

/-- An `AuditLog` row as created by the gamification worker; the `metadata`
JSON bag `{ xp, stars, newTotal, leveledUp }` is flattened into fields. -/
structure AuditLog where
  actorId : String
  action : String
  resourceType : String
  resourceId : String
  metaXp : Int
  metaStars : Int
  metaNewTotal : Int
  metaLeveledUp : Bool
deriving DecidableEq

/-- `prisma.user.findUnique({ where: { id } })` over the user table. -/
def findUnique (users : List User) (uid : String) : Option User :=
  users.find? (fun u => u.id == uid)

/-- `prisma.user.update({ where: { id }, data })`: replaces the fields of the
row(s) whose `id` matches. -/
def updateUser (users : List User) (uid : String) (f : User → User) : List User :=
  users.map (fun u => if u.id == uid then f u else u)

/-- `formatAction` from gamification.processor.ts: maps an action tag to its
human-readable label, falling back to the tag itself. -/
def formatAction (action : String) : String :=
  if action == "acessar_plataforma" then "acessar a plataforma"
  else if action == "completar_treinamento" then "completar um treinamento"
  else if action == "interagir_feed" then "interagir no feed"
  else if action == "dar_feedback" then "enviar feedback"
  else if action == "responder_pesquisa" then "responder pesquisa"
  else if action == "participar_evento" then "participar de evento"
  else if action == "registrar_humor" then "registrar humor"
  else if action == "criar_post" then "criar post"
  else if action == "comentar_post" then "comentar em post"
  else if action == "reagir_post" then "reagir a post"
  else if action == "resgatar_recompensa" then "resgatar recompensa"
  else action

/-- Observable outcome of one run of `processGamificationJob`. `ok = false`
means the job threw (the exception propagated to BullMQ, which will retry
the job); `users` is the user table after the run, including writes that
committed before the throw. `cacheWrites`, `notifications` and `audits`
collect the `updateLeaderboardScore`, `enqueueNotification` and
`prisma.auditLog.create` effects, in order. -/
structure WorkerOutcome where
  ok : Bool
  users : List User
  cacheWrites : List (String × Int)
  notifications : List NotificationJobData
  audits : List AuditLog
deriving DecidableEq

/-- `processGamificationJob` from gamification.processor.ts. `cacheOk` models
whether `redis.zadd` (inside `updateLeaderboardScore`) succeeds; the call is
not wrapped in try/catch in the source, so on failure the rejection
propagates and the job aborts right there — after the ledger write, before
notifications and audit. `enqueueNotification` never throws (bullmq.client.ts
swallows queue errors internally). -/
def processGamificationJob (cacheOk : Bool) (users : List User)
    (job : GamificationJobData) : WorkerOutcome :=
  let xp := job.xp.getD 0
  let stars := job.stars.getD 0
  match findUnique users job.userId with
  | none =>
      { ok := true, users := users, cacheWrites := [], notifications := [], audits := [] }
  | some user =>
      if user.role ≠ Role.colaborador then
        { ok := true, users := users, cacheWrites := [], notifications := [], audits := [] }
      else
        let oldXp := user.xp
        let newXp := user.xp + xp
        let newStars := user.estrelas + stars
        let levelCheck := checkLevelUp oldXp newXp
        let newLevel := levelCheck.newLevel
        let newXpProximo := calculateXpForNextLevel newLevel
        let users' := updateUser users job.userId (fun u =>
          { u with xp := newXp, estrelas := newStars, nivel := newLevel,
                   xpProximo := newXpProximo })
        if !cacheOk then
          { ok := false, users := users', cacheWrites := [], notifications := [], audits := [] }
        else
          let xpNotifs : List NotificationJobData :=
            if 0 < xp then
              [{ userId := job.userId, type := "xp_gained", title := "XP conquistado!",
                 message := "Você ganhou " ++ toString xp ++ " XP por " ++ formatAction job.action }]
            else []
          let levelNotifs : List NotificationJobData :=
            if levelCheck.leveledUp then
              [{ userId := job.userId, type := "level_up",
                 title := "Subiu para Nível " ++ toString newLevel ++ "!",
                 message := "Parabéns! Você alcançou o nível " ++ toString newLevel ++ "!" }]
            else []
          { ok := true, users := users',
            cacheWrites := [(job.userId, newXp)],
            notifications := xpNotifs ++ levelNotifs,
            audits := [{ actorId := job.userId, action := "gamification." ++ job.action,
                         resourceType := "user", resourceId := job.userId,
                         metaXp := xp, metaStars := stars, metaNewTotal := newXp,
                         metaLeveledUp := levelCheck.leveledUp }] }

/-- `AwardXpInput` from award-xp.usecase.ts (`stars?` optional, opaque
`context` omitted). -/
structure AwardXpInput where
  userId : String
  userRole : Role
  action : String
  xp : Int
  stars : Option Int
deriving DecidableEq

/-- `awardXpUseCase` from award-xp.usecase.ts: returns the gamification event
handed to `enqueueGamificationEvent`, or `none` when the GamificationGuard
makes the call a no-op (role other than colaborador). The function itself
never throws: enqueueing is the only side effect and
`enqueueGamificationEvent` swallows queue errors. -/
def awardXpUseCase (input : AwardXpInput) : Option GamificationJobData :=
  if input.userRole ≠ Role.colaborador then
    none
  else
    some { userId := input.userId, action := input.action,
           xp := some input.xp, stars := some (input.stars.getD 0) }

/-- The list of events an `awardXpUseCase` call submits to the queue. -/
def eventsOf : Option GamificationJobData → List GamificationJobData
  | none => []
  | some j => [j]

/-- Sequential processing of a list of gamification events by the worker,
threading the user table. -/
def processEvents (cacheOk : Bool) (users : List User) :
    List GamificationJobData → List User
  | [] => users
  | j :: js => processEvents cacheOk (processGamificationJob cacheOk users j).users js

/-- One entry of the list returned by `getLeaderboard` in redis.client.ts:
`{ userId, xp, rank }`. -/
structure LBEntry where
  userId : String
  xp : Int
  rank : Nat
deriving DecidableEq

/-- One entry of the ranking page the route returns, restricted to the
fields the claims inspect (`id`, `xp`, `nivel` from the enriching user row,
plus `rank` and `isCurrentUser`). -/
structure RankingEntry where
  rank : Nat
  id : String
  xp : Int
  nivel : Nat
  isCurrentUser : Bool
deriving DecidableEq

/-- Response body of `GET /ranking/global`. -/
structure RankingPage where
  ranking : List RankingEntry
  currentUserRank : Option Nat
deriving DecidableEq

/-- JS `list.map((x, idx) => f(idx, x))` starting from index `i`. -/
def mapIdxFrom (f : Nat → α → β) : Nat → List α → List β
  | _, [] => []
  | i, a :: as => f i a :: mapIdxFrom f (i + 1) as

/-- Stable insertion for descending-by-xp order: `u` goes before the first
element with strictly smaller xp. -/
def insertByXpDesc (u : User) : List User → List User
  | [] => [u]
  | v :: vs => if v.xp < u.xp then u :: v :: vs else v :: insertByXpDesc u vs

/-- `orderBy: { xp: 'desc' }` over a list of user rows (stable; ties keep
table order, which the spec leaves unspecified). -/
def sortByXpDesc (users : List User) : List User :=
  users.foldr insertByXpDesc []

/-- The DB fallback query of the ranking route:
`prisma.user.findMany({ where: { role: 'colaborador', isActive: true },
orderBy: { xp: 'desc' }, skip: offset, take: limit })`. -/
def dbFallbackQuery (users : List User) (offset limit : Nat) : List User :=
  (((sortByXpDesc (users.filter
      (fun u => u.role == Role.colaborador && u.isActive))).drop offset).take limit)

/-- The enrichment step of `GET /ranking/global`: for each leaderboard entry,
spread the user row found by the batch id lookup and keep the entry only if
a row was found (`.map(e => ({rank: e.rank, ...userMap.get(e.userId),
isCurrentUser})).filter(e => e.id)` — an entry with no user row has no `id`
and is filtered out, which is exactly a `filterMap`). -/
def enrichRanking (users : List User) (uid : String)
    (lb : List LBEntry) : List RankingEntry :=
  lb.filterMap (fun e =>
    match findUnique users e.userId with
    | some u => some { rank := e.rank, id := u.id, xp := u.xp, nivel := u.nivel,
                       isCurrentUser := e.userId == uid }
    | none => none)

/-- The `GET /ranking/global` handler from ranking.routes.ts.

`gl` is the observable result of the `getLeaderboard(offset, limit)` call:
`none` when it threw (Redis unavailable, caught by the route and treated as
an empty leaderboard) and `some l` when it returned `l`. `rankRes` is the
result of the `getUserRank` call, `none` both when absent and when Redis is
unavailable. When the leaderboard is empty the route falls back to the
direct DB query, assigning `rank := offset + idx + 1` by position; the
best-effort cache repopulation has no observable effect on the response and
is not modelled. -/
def getGlobalRanking (gl : Option (List LBEntry)) (rankRes : Option Nat)
    (users : List User) (offset limit : Nat) (uid : String) : RankingPage :=
  let fromCache := gl.getD []
  let leaderboard :=
    if fromCache.isEmpty then
      mapIdxFrom (fun i u => { userId := u.id, xp := u.xp, rank := offset + i + 1 }) 0
        (dbFallbackQuery users offset limit)
    else fromCache
  { ranking := enrichRanking users uid leaderboard, currentUserRank := rankRes }

/-- Modelled from the spec: "a direct sorted query of colaborador users, for
the same offset/limit" — the reference ranking that the fallback path must
match, as pairs `(userId, rank)` with ranks assigned as
`offset + position + 1`. -/
def directSortedQuerySpec (users : List User) (offset limit : Nat) :
    List (String × Nat) :=
  mapIdxFrom (fun i u => (u.id, offset + i + 1)) 0 (dbFallbackQuery users offset limit)

/-- Phase of one worker instance executing the ledger part of
`processGamificationJob` for a fixed user: it first reads the row
(`prisma.user.findUnique`), remembering the xp it saw, then writes back the
precomputed value `snapshot + delta`
(`prisma.user.update({ data: { xp: newXp } })` — a plain SET of a value
computed in JS from the earlier read, not an atomic increment). -/
inductive RMWPhase where
  | toRead
  | toWrite (snapshot : Int)
  | done
deriving DecidableEq

/-- One step of a worker instance with XP delta `d` against the shared
ledger value: a read snapshots the ledger; a write stores `snapshot + d`,
overwriting whatever the ledger holds now. -/
def stepWorker (d : Int) (ledger : Int) : RMWPhase → Int × RMWPhase
  | RMWPhase.toRead => (ledger, RMWPhase.toWrite ledger)
  | RMWPhase.toWrite s => (s + d, RMWPhase.done)
  | RMWPhase.done => (ledger, RMWPhase.done)

/-- Interleaved execution of two worker instances (deltas `d1`, `d2`) for the
same user: `true` in the schedule runs the next step of worker 1, `false` of
worker 2. Returns the final ledger xp and both phases. -/
def runSchedule (d1 d2 : Int) : Int × RMWPhase × RMWPhase → List Bool →
    Int × RMWPhase × RMWPhase
  | s, [] => s
  | (x, p1, p2), b :: bs =>
      if b then
        let r := stepWorker d1 x p1
        runSchedule d1 d2 (r.1, r.2, p2) bs
      else
        let r := stepWorker d2 x p2
        runSchedule d1 d2 (r.1, p1, r.2) bs

/-- Test fixture: a fresh colaborador with xp 0 (Scenario A's user). -/
def userA : User :=
  { id := "u1", role := Role.colaborador, xp := 0, estrelas := 0, nivel := 1,
    xpProximo := 500, isActive := true }

/-- Test fixture: another colaborador with xp 30. -/
def userB : User :=
  { id := "u3", role := Role.colaborador, xp := 30, estrelas := 0, nivel := 1,
    xpProximo := 500, isActive := true }

/-- Test fixture: Scenario A's award event, xp = 600 for user "u1". -/
def job600 : GamificationJobData :=
  { userId := "u1", action := "dar_feedback", xp := some 600, stars := some 0 }

/-- Test fixture: a gestor-role award call worth xp = 50 (Scenario B). -/
def inputGestor : AwardXpInput :=
  { userId := "u2", userRole := Role.gestor, action := "dar_feedback", xp := 50,
    stars := none }

/-- Test fixture: a cached leaderboard page where entry "ghost" belongs to a
user deleted from the user table. -/
def cacheL : List LBEntry :=
  [{ userId := "u1", xp := 600, rank := 1 },
   { userId := "ghost", xp := 50, rank := 2 },
   { userId := "u3", xp := 30, rank := 3 }]

/-- C1 counterexample: processing an xp=600 award for a colaborador at xp 0
leaves the user at level 2, not level 3 — 600 is past the level-2 threshold
(500) but short of the level-3 threshold (1500), so the claimed move from
level 1 to level 3 is false on the code. -/
theorem award600_reaches_level_two_not_three :
    (checkLevelUp 0 600).newLevel = 2
      ∧ ¬ (checkLevelUp 0 600).newLevel = 3
      ∧ (findUnique (processGamificationJob true [userA] job600).users "u1").map User.nivel
          = some 2 := by
  decide

/-- C1 (amended): processing an award event of xp=600 for a colaborador whose
ledger xp is 0 moves the level from 1 to 2 (given thresholds 0/500/1500),
the level check reports leveledUp = true, and two notification events are
enqueued, one of type xp_gained and one of type level_up. -/
theorem award600_scenario_amended :
    (processGamificationJob true [userA] job600).ok = true
      ∧ (checkLevelUp 0 600).oldLevel = 1
      ∧ (checkLevelUp 0 600).newLevel = 2
      ∧ (checkLevelUp 0 600).leveledUp = true
      ∧ (findUnique (processGamificationJob true [userA] job600).users "u1").map User.xp
          = some 600
      ∧ (findUnique (processGamificationJob true [userA] job600).users "u1").map User.nivel
          = some 2
      ∧ (processGamificationJob true [userA] job600).notifications.map NotificationJobData.type
          = ["xp_gained", "level_up"] := by
  decide

/-- C2: a failing leaderboard-cache update is fatal to the worker job. The
`updateLeaderboardScore` await in `processGamificationJob` is not wrapped in
try/catch, so when the cache write fails the job aborts with the ledger
already updated (xp = 600) but no notification enqueued and no audit record
appended — contradicting the spec's "failure here must not fail the overall
job". -/
theorem cache_failure_aborts_job_at_scenario :
    (processGamificationJob false [userA] job600).ok = false
      ∧ (processGamificationJob false [userA] job600).notifications = []
      ∧ (processGamificationJob false [userA] job600).audits = []
      ∧ (findUnique (processGamificationJob false [userA] job600).users "u1").map User.xp
          = some 600 := by
  decide

/-- C3: the ledger update is a read followed by a plain write of a
precomputed value, so two concurrent jobs for the same user can lose an
update. Starting from xp 0 with two deltas of 100 each: the interleaving
read1-read2-write1-write2 ends with xp 100, not the 200 required by the
no-lost-update property, while the serial schedule ends with 200. -/
theorem interleaved_same_user_updates_lose_xp :
    runSchedule 100 100 (0, RMWPhase.toRead, RMWPhase.toRead) [true, false, true, false]
        = (100, RMWPhase.done, RMWPhase.done)
      ∧ runSchedule 100 100 (0, RMWPhase.toRead, RMWPhase.toRead) [true, true, false, false]
        = (200, RMWPhase.done, RMWPhase.done)
      ∧ ¬ (100 : Int) = 0 + 100 + 100 := by
  decide

/-- C4 counterexample: at the last defined level the claimed identity fails —
`calculateXpForNextLevel 10` returns 28000 (last threshold + 5000) and
`calculateLevel 28000` is 10, the table's maximum, not 11. -/
theorem max_level_threshold_reenters_same_level :
    calculateLevel (calculateXpForNextLevel 10) = 10
      ∧ ¬ calculateLevel (calculateXpForNextLevel 10) = 10 + 1 := by
  decide

/-- C4 (amended): for every defined level L that still has a successor in
the threshold table (1 ≤ L ≤ 9), feeding `calculateXpForNextLevel L` back
into `calculateLevel` yields exactly level L + 1: the threshold marks the
exact entry point to the next level. -/
theorem threshold_is_entry_point_below_max (L : Nat) (h1 : 1 ≤ L) (h2 : L ≤ 9) :
    calculateLevel (calculateXpForNextLevel L) = L + 1 := by
  interval_cases L <;> decide

/-- Witness for the amended C4 theorem at L = 2. -/
theorem threshold_is_entry_point_below_max_witness :
    1 ≤ 2 ∧ 2 ≤ 9 ∧ calculateLevel (calculateXpForNextLevel 2) = 2 + 1 :=
  ⟨by decide, by decide, threshold_is_entry_point_below_max 2 (by decide) (by decide)⟩

/-- C9: `calculateLevel` is total and bounded — for every integer xp,
including negative values, it returns a level between 1 and 10; any xp below
the level-2 threshold (500) gives level 1 and any xp at or above the last
threshold (23000) gives level 10. -/
theorem calculateLevel_total_and_bounded (xp : Int) :
    (1 ≤ calculateLevel xp ∧ calculateLevel xp ≤ 10)
      ∧ (xp < 500 → calculateLevel xp = 1)
      ∧ (23000 ≤ xp → calculateLevel xp = 10) := by
  simp only [calculateLevel, LEVEL_THRESHOLDS, List.drop, calcLevelGo]
  split_ifs <;> refine ⟨⟨?_, ?_⟩, fun h1 => ?_, fun h2 => ?_⟩ <;> omega

/-- Witness for C9 at xp = -7 and xp = 25000. -/
theorem calculateLevel_total_and_bounded_witness :
    ((-7 : Int) < 500 ∧ calculateLevel (-7) = 1)
      ∧ ((23000 : Int) ≤ 25000 ∧ calculateLevel 25000 = 10) :=
  ⟨⟨by decide, (calculateLevel_total_and_bounded (-7)).2.1 (by decide)⟩,
   ⟨by decide, (calculateLevel_total_and_bounded 25000).2.2 (by decide)⟩⟩

/-- C7: when the event's userId has no user row at processing time, the
worker completes without error and performs no state change: the user table
is unchanged and no cache write, notification or audit record is produced. -/
theorem missing_user_event_is_noop (cacheOk : Bool) (users : List User)
    (job : GamificationJobData) (h : findUnique users job.userId = none) :
    processGamificationJob cacheOk users job =
      { ok := true, users := users, cacheWrites := [], notifications := [], audits := [] } := by
  simp only [processGamificationJob, h]

/-- Witness for C7: an event for "u1" against an empty user table. -/
theorem missing_user_event_is_noop_witness :
    findUnique [] job600.userId = none
      ∧ processGamificationJob true [] job600 =
          { ok := true, users := [], cacheWrites := [], notifications := [], audits := [] } :=
  ⟨rfl, missing_user_event_is_noop true [] job600 rfl⟩

/-- C6: for a caller whose role is not colaborador, `awardXpUseCase` is a
silent no-op — it produces no gamification event (and raises no error, being
a total function), so processing the events of such a call leaves any user
table unchanged: no ledger mutation can result. -/
theorem award_noncolaborador_is_silent_noop (input : AwardXpInput)
    (h : input.userRole ≠ Role.colaborador) :
    awardXpUseCase input = none
      ∧ ∀ (cacheOk : Bool) (users : List User),
          processEvents cacheOk users (eventsOf (awardXpUseCase input)) = users := by
  have e : awardXpUseCase input = none := by
    simp only [awardXpUseCase, if_pos h]
  exact ⟨e, fun cacheOk users => by rw [e]; rfl⟩

/-- Witness for C6 at the gestor fixture. -/
theorem award_noncolaborador_is_silent_noop_witness :
    inputGestor.userRole ≠ Role.colaborador
      ∧ (awardXpUseCase inputGestor = none
          ∧ ∀ (cacheOk : Bool) (users : List User),
              processEvents cacheOk users (eventsOf (awardXpUseCase inputGestor)) = users) :=
  ⟨by decide, award_noncolaborador_is_silent_noop inputGestor (by decide)⟩

/-- C5: after a ledger update applied by the worker (user found and role
colaborador), every user row carrying the event's userId satisfies the
derived-field invariant: its stored nivel equals `calculateLevel` of its
stored xp and its stored xpProximo equals `calculateXpForNextLevel` of that
nivel — in both the cache-ok and the cache-failure outcome. -/
theorem worker_update_preserves_level_invariant (cacheOk : Bool)
    (users : List User) (job : GamificationJobData) (u : User)
    (hu : findUnique users job.userId = some u)
    (hrole : u.role = Role.colaborador) :
    ∀ u' ∈ (processGamificationJob cacheOk users job).users,
      u'.id = job.userId →
        u'.nivel = calculateLevel u'.xp
          ∧ u'.xpProximo = calculateXpForNextLevel u'.nivel := by
  intro u' hmem hid
  simp only [processGamificationJob, hu, hrole, ne_eq, not_true_eq_false,
    if_false, ite_false] at hmem
  have hmem' : u' ∈ updateUser users job.userId (fun w =>
      { w with xp := u.xp + job.xp.getD 0,
               estrelas := u.estrelas + job.stars.getD 0,
               nivel := (checkLevelUp u.xp (u.xp + job.xp.getD 0)).newLevel,
               xpProximo := calculateXpForNextLevel
                 ((checkLevelUp u.xp (u.xp + job.xp.getD 0)).newLevel) }) := by
    cases cacheOk <;> simpa using hmem
  rcases List.mem_map.1 hmem' with ⟨w, _, hw⟩
  by_cases hwid : w.id == job.userId
  · rw [if_pos hwid] at hw
    subst hw
    exact ⟨by simp [checkLevelUp], rfl⟩
  · rw [if_neg hwid] at hw
    subst hw
    exact absurd hid (by simpa using hwid)

/-- Witness for C5 at the Scenario A fixture. -/
theorem worker_update_preserves_level_invariant_witness :
    findUnique [userA] job600.userId = some userA
      ∧ userA.role = Role.colaborador
      ∧ ∀ u' ∈ (processGamificationJob true [userA] job600).users,
          u'.id = job600.userId →
            u'.nivel = calculateLevel u'.xp
              ∧ u'.xpProximo = calculateXpForNextLevel u'.nivel :=
  ⟨by decide, rfl,
   worker_update_preserves_level_invariant true [userA] job600 userA (by decide) rfl⟩

lemma mem_insertByXpDesc (u v : User) (l : List User) :
    v ∈ insertByXpDesc u l → v = u ∨ v ∈ l := by
  induction l with
  | nil => intro h; simpa [insertByXpDesc] using h
  | cons a as ih =>
      intro h
      simp only [insertByXpDesc] at h
      by_cases hc : a.xp < u.xp
      · rw [if_pos hc] at h
        rcases List.mem_cons.1 h with h1 | h2
        · exact Or.inl h1
        · exact Or.inr h2
      · rw [if_neg hc] at h
        rcases List.mem_cons.1 h with h1 | h2
        · exact Or.inr (h1 ▸ List.mem_cons_self a as)
        · rcases ih h2 with h3 | h4
          · exact Or.inl h3
          · exact Or.inr (List.mem_cons_of_mem a h4)

lemma mem_sortByXpDesc (v : User) (l : List User) :
    v ∈ sortByXpDesc l → v ∈ l := by
  induction l with
  | nil => exact fun h => h
  | cons a as ih =>
      intro h
      rcases mem_insertByXpDesc a v (sortByXpDesc as) h with h1 | h2
      · exact h1 ▸ List.mem_cons_self a as
      · exact List.mem_cons_of_mem a (ih h2)

lemma mem_dbFallbackQuery (users : List User) (offset limit : Nat) :
    ∀ u ∈ dbFallbackQuery users offset limit, u ∈ users := by
  intro u hu
  unfold dbFallbackQuery at hu
  have h1 := List.mem_of_mem_take hu
  have h2 := List.mem_of_mem_drop h1
  have h3 := mem_sortByXpDesc u _ h2
  exact List.mem_of_mem_filter h3

lemma findUnique_of_mem (users : List User) (u : User) (hm : u ∈ users) :
    ∃ w, findUnique users u.id = some w ∧ w.id = u.id := by
  have hsome : (users.find? (fun w => w.id == u.id)).isSome := by
    rw [List.find?_isSome]
    exact ⟨u, hm, by simp⟩
  rcases Option.isSome_iff_exists.1 hsome with ⟨w, hw⟩
  refine ⟨w, hw, ?_⟩
  have := List.find?_some hw
  simpa using this

lemma enrichRanking_mapIdxFrom (users : List User) (uid : String) (offset : Nat) :
    ∀ L : List User, (∀ u ∈ L, u ∈ users) → ∀ i : Nat,
      (enrichRanking users uid
          (mapIdxFrom (fun j u => { userId := u.id, xp := u.xp, rank := offset + j + 1 }) i L)).map
        (fun e => (e.id, e.rank))
      = mapIdxFrom (fun j u => (u.id, offset + j + 1)) i L := by
  intro L
  induction L with
  | nil => intro _ _; rfl
  | cons a as ih =>
      intro h i
      rcases findUnique_of_mem users a (h a (List.mem_cons_self a as)) with ⟨w, hw, hwid⟩
      simp only [mapIdxFrom, enrichRanking, List.filterMap_cons, hw, List.map_cons]
      rw [hwid]
      exact congrArg _ (ih (fun u hu => h u (List.mem_cons_of_mem a hu)) (i + 1))

lemma enrichRanking_proj (users : List User) (uid : String) :
    ∀ l : List LBEntry,
      (enrichRanking users uid l).map (fun e => (e.id, e.rank))
        = (l.filter (fun e => (findUnique users e.userId).isSome)).map
            (fun e => (e.userId, e.rank)) := by
  intro l
  induction l with
  | nil => rfl
  | cons e es ih =>
      cases hfind : findUnique users e.userId with
      | none =>
          simp only [enrichRanking, List.filterMap_cons, hfind, List.filter_cons,
            Option.isSome_none, Bool.false_eq_true, if_false]
          exact ih
      | some w =>
          have hwid : w.id = e.userId := by
            have hfind' : users.find? (fun u => u.id == e.userId) = some w := hfind
            simpa using List.find?_some hfind'
          simp only [enrichRanking, List.filterMap_cons, hfind, List.filter_cons,
            Option.isSome_some, if_true, List.map_cons]
          rw [hwid]
          exact congrArg _ ih

/-- C8: whenever the leaderboard cache yields an empty result — either the
`getLeaderboard` call threw (cache unavailable, modelled `none`) or it
returned an empty page (`some []`) — the global-ranking response is, as a
sequence of (userId, rank) pairs, identical to the direct sorted query of
active colaborador users for the same offset and limit, with ranks assigned
as offset + position + 1. -/
theorem ranking_fallback_matches_direct_query (users : List User)
    (offset limit : Nat) (uid : String) (rankRes : Option Nat) :
    ((getGlobalRanking none rankRes users offset limit uid).ranking.map
        (fun e => (e.id, e.rank)) = directSortedQuerySpec users offset limit)
      ∧ ((getGlobalRanking (some []) rankRes users offset limit uid).ranking.map
        (fun e => (e.id, e.rank)) = directSortedQuerySpec users offset limit) := by
  constructor <;>
  · simp only [getGlobalRanking, Option.getD_none, Option.getD_some, List.isEmpty_nil, if_true,
      directSortedQuerySpec]
    exact enrichRanking_mapIdxFrom users uid offset (dbFallbackQuery users offset limit)
      (mem_dbFallbackQuery users offset limit) 0

/-- C10: when the global-ranking page is served from a non-empty leaderboard
cache result, exactly the entries whose userId has no user row are dropped:
the response, as (id, rank) pairs, equals the cache page filtered to entries
whose userId resolves in the user table, each survivor keeping its original
cache rank — so the page may hold fewer than limit entries with
non-contiguous ranks. -/
theorem cache_ranking_drops_deleted_users (users : List User) (uid : String)
    (rankRes : Option Nat) (offset limit : Nat) (l : List LBEntry) (h : l ≠ []) :
    (getGlobalRanking (some l) rankRes users offset limit uid).ranking.map
        (fun e => (e.id, e.rank))
      = (l.filter (fun e => (findUnique users e.userId).isSome)).map
          (fun e => (e.userId, e.rank)) := by
  have hne : l.isEmpty = false := by simpa [List.isEmpty_iff] using h
  simp only [getGlobalRanking, Option.getD_some, hne, Bool.false_eq_true, if_false]
  exact enrichRanking_proj users uid l

/-- Witness for C10: the ghost entry is dropped and the remaining ranks 1
and 3 are non-contiguous. -/
theorem cache_ranking_drops_deleted_users_witness :
    cacheL ≠ []
      ∧ (getGlobalRanking (some cacheL) none [userA, userB] 0 50 "u1").ranking.map
          (fun e => (e.id, e.rank)) = [("u1", 1), ("u3", 3)] :=
  ⟨by decide,
   (cache_ranking_drops_deleted_users [userA, userB] "u1" none 0 50 cacheL
      (by decide)).trans (by decide)⟩

end EngageAI
